import Mathlib

/-!
Verification of the madmin-modules registry builder
(src/scripts/build_registry.py) against its specification.

The Python script is shallowly embedded: JSON documents become the
inductive type JsonValue, Python dicts become association lists with
Python's insertion-order update semantics, network requests become
explicit outcome oracles, and every Python statement that can raise is
modelled with Except.  The definitions follow the source line by line;
theorems at the end settle the frozen claims.
-/

namespace BuildRegistry

/-- A JSON-like value as manipulated by the script.  `pdict` models a
Python dict whose keys are arbitrary (hashable) Python values; it arises
only for the changelog mapping built from release tags.  Numbers are
integers, which covers every numeric field the script touches. -/
inductive JsonValue where
  | null
  | bool (b : Bool)
  | num (n : Int)
  | str (s : String)
  | arr (elems : List JsonValue)
  | obj (fields : List (String × JsonValue))
  | pdict (entries : List (JsonValue × JsonValue))

/-- A Python dict with string keys (a parsed JSON object), in insertion
order. -/
abbrev Dict := List (String × JsonValue)

/-- Python `d.get(k)` / `d[k]`: the value stored at the first matching
key, if any. -/
def dget : Dict → String → Option JsonValue
  | [], _ => none
  | (k1, v) :: rest, k => if k1 = k then some v else dget rest k

/-- Python `d[k] = v`: replace in place if the key exists, else append
at the end (insertion order). -/
def dset : Dict → String → JsonValue → Dict
  | [], k, v => [(k, v)]
  | (k1, v1) :: rest, k, v =>
      if k1 = k then (k, v) :: rest else (k1, v1) :: dset rest k v

/-- Python `k in d`. -/
def dcontains (d : Dict) (k : String) : Bool := (dget d k).isSome

/-- Python `d.setdefault(k, v)`: keep an existing entry (even an
explicit null), else append the default at the end. -/
def dsetdefault (d : Dict) (k : String) (v : JsonValue) : Dict :=
  if dcontains d k then d else d ++ [(k, v)]

/-- Python truthiness of a JSON value. -/
def jvTruthy : JsonValue → Bool
  | .null => false
  | .bool b => b
  | .num n => !(n == 0)
  | .str s => !s.data.isEmpty
  | .arr xs => !xs.isEmpty
  | .obj fs => !fs.isEmpty
  | .pdict ps => !ps.isEmpty

/-- Python `==` on hashable values usable as dict keys (note that
`True == 1` in Python). Unhashable values never reach this point. -/
def keyEq : JsonValue → JsonValue → Bool
  | .null, .null => true
  | .bool a, .bool b => a == b
  | .num a, .num b => a == b
  | .bool a, .num b => (if a then (1 : Int) else 0) == b
  | .num a, .bool b => a == (if b then (1 : Int) else 0)
  | .str a, .str b => a == b
  | _, _ => false

/-- Insertion into a Python dict with arbitrary keys: an existing key
keeps its position (and original key object), a new key is appended. -/
def pdictSet : List (JsonValue × JsonValue) → JsonValue → JsonValue →
    List (JsonValue × JsonValue)
  | [], k, v => [(k, v)]
  | (k1, v1) :: rest, k, v =>
      if keyEq k1 k then (k1, v) :: rest else (k1, v1) :: pdictSet rest k v

/-! ### String helpers mirroring the Python string operations -/

/-- Python `s.rstrip(cs)`: remove all trailing characters drawn from the
character set `cs` (not the literal suffix). -/
def rstripChars (cs : List Char) (s : List Char) : List Char :=
  (s.reverse.dropWhile (fun c => cs.contains c)).reverse

/-- Python `s.split(sep)` for a one-character separator: keeps empty
pieces, and the empty string splits to one empty piece. -/
def splitOnChar (c : Char) : List Char → List (List Char)
  | [] => [[]]
  | x :: xs =>
      let r := splitOnChar c xs
      if x = c then [] :: r
      else
        match r with
        | hd :: tl => (x :: hd) :: tl
        | [] => [[x]]

/-- Bool test that `pre` is a prefix of `s`. -/
def isPrefixChars : List Char → List Char → Bool
  | [], _ => true
  | _ :: _, [] => false
  | a :: as, b :: bs => a == b && isPrefixChars as bs

/-- Python `sub in s` on strings: substring containment. -/
def containsSub (sub : List Char) : List Char → Bool
  | [] => isPrefixChars sub []
  | b :: bs => isPrefixChars sub (b :: bs) || containsSub sub bs

/-! ### get_repo_info (build_registry.py lines 29-34)

```
def get_repo_info(repo_url: str) -> tuple:
    if not repo_url or "github.com" not in repo_url:
        return None, None
    parts = repo_url.rstrip("/").rstrip(".git").split("/")
    return parts[-2], parts[-1]
```

`parts[-2]` raises IndexError when the split yields a single segment;
the raise is modelled as `Except.error ()`. -/

def get_repo_info (repo_url : String) :
    Except Unit (Option String × Option String) :=
  if repo_url.data.isEmpty || !containsSub "github.com".data repo_url.data then
    .ok (none, none)
  else
    let parts :=
      splitOnChar '/' (rstripChars ".git".data (rstripChars "/".data repo_url.data))
    match parts.reverse with
    | last :: prev :: _ => .ok (some (String.mk prev), some (String.mk last))
    | _ => .error ()

/-! ### get_manifest_from_repo (build_registry.py lines 37-53)

```
try:
    for branch in ["main", "master"]:
        url = ...
        r = requests.get(url, headers=headers, timeout=10)
        if r.ok:
            return r.json()
except Exception as e:
    print(f"  Warning: Could not fetch manifest: {e}")
return {}
```

Each branch request is abstracted by an oracle giving its outcome:
the request raised, responded non-ok, responded ok but with a body
that fails to parse (`r.json()` raises), or responded ok with a parsed
JSON document.  The try block wraps the WHOLE loop, so a raise ends
the iteration and falls to `return {}`. -/

/-- Outcome of one `requests.get` + optional `r.json()` attempt. -/
inductive FetchOutcome where
  | raised           -- the request itself raised (network error, timeout)
  | notOk            -- response received, `r.ok` false
  | okBadJson        -- `r.ok` true but `r.json()` raised (parse error)
  | okJson (v : JsonValue)  -- `r.ok` true and the body parsed

/-- The branch loop: non-ok falls through to the next candidate, a
raised exception (from the request or from `r.json()`) aborts the loop
and the surrounding handler returns `{}`. -/
def tryBranches (resp : String → FetchOutcome) : List String → JsonValue
  | [] => .obj []
  | b :: bs =>
      match resp b with
      | .okJson v => v
      | .notOk => tryBranches resp bs
      | .raised => .obj []
      | .okBadJson => .obj []

def get_manifest_from_repo (resp : String → FetchOutcome) : JsonValue :=
  tryBranches resp ["main", "master"]

/-! ### get_github_stats (build_registry.py lines 56-101)

Two requests (repository metadata, then the release list) are issued
inside ONE try block; the handler returns whatever part of `stats` was
already built.  The releases part builds a changelog dict from the
first five releases (each body sliced to 500 characters) and sums
download counts over all releases. -/

/-- Python `s[:n]` on the kinds of values a release body can hold:
strings and lists slice, anything else raises TypeError. -/
def pySliceTake (n : Nat) : JsonValue → Except Unit JsonValue
  | .str s => .ok (.str (String.mk (s.data.take n)))
  | .arr xs => .ok (.arr (xs.take n))
  | _ => .error ()

/-- One entry of the changelog comprehension
`rel["tag_name"]: rel.get("body", "")[:500]`.
Missing `tag_name` is a KeyError, a non-object release is a TypeError,
an unhashable tag (list/dict) is a TypeError at insertion, and slicing
a non-sliceable body is a TypeError. -/
def relEntry (rel : JsonValue) : Except Unit (JsonValue × JsonValue) :=
  match rel with
  | .obj fs =>
      match dget fs "tag_name" with
      | none => .error ()
      | some tag =>
          match tag with
          | .arr _ => .error ()
          | .obj _ => .error ()
          | .pdict _ => .error ()
          | _ =>
              match pySliceTake 500 ((dget fs "body").getD (.str "")) with
              | .ok b => .ok (tag, b)
              | .error e => .error e
  | _ => .error ()

/-- The dict comprehension over `releases[:5]`. -/
def buildChangelog (rels : List JsonValue) :
    Except Unit (List (JsonValue × JsonValue)) :=
  (rels.take 5).foldlM
    (fun acc rel => do
      let e ← relEntry rel
      pure (pdictSet acc e.1 e.2))
    []

/-- `asset.get("download_count", 0)` summed as an integer: a present
non-numeric value is a TypeError when added (Python bools count as
ints). -/
def assetCount : JsonValue → Except Unit Int
  | .obj fs =>
      match dget fs "download_count" with
      | none => .ok 0
      | some (.num n) => .ok n
      | some (.bool b) => .ok (if b then 1 else 0)
      | some _ => .error ()
  | _ => .error ()

/-- Python iteration over `rel.get("assets", [])`: lists iterate their
elements, strings iterate one-character strings, dicts iterate their
keys, a present `None` or number is a TypeError, and a non-object
release raises on `.get`. -/
def relAssets : JsonValue → Except Unit (List JsonValue)
  | .obj fs =>
      match dget fs "assets" with
      | none => .ok []
      | some (.arr xs) => .ok xs
      | some (.str s) => .ok (s.data.map (fun c => .str (String.mk [c])))
      | some (.obj gs) => .ok (gs.map (fun kv => .str kv.1))
      | some (.pdict ps) => .ok (ps.map (fun kv => kv.1))
      | some .null => .error ()
      | some (.num _) => .error ()
      | some (.bool _) => .error ()
  | _ => .error ()

/-- `sum(asset.get("download_count", 0) for rel in releases for asset
in rel.get("assets", []))`. -/
def sumDownloads (rels : List JsonValue) : Except Unit Int :=
  rels.foldlM
    (fun acc rel => do
      let xs ← relAssets rel
      xs.foldlM (fun a asset => do
        let c ← assetCount asset
        pure (a + c)) acc)
    0

/-- Lines 74-77: `stats["stars"] = data.get("stargazers_count", 0)` and
`stats["updated_at"] = data.get("pushed_at")` (the one-argument `get`
stores `None` when absent; an explicit null is stored as is). -/
def statsAfterRepo (fs : Dict) (stats : Dict) : Dict :=
  dset (dset stats "stars" ((dget fs "stargazers_count").getD (.num 0)))
    "updated_at" ((dget fs "pushed_at").getD .null)

/-- Lines 79-97: the releases request and its processing, starting from
the stats built so far.  Any modelled raise returns the stats built up
to that point (the surrounding except catches it). -/
def statsReleases (stats : Dict) (r2 : FetchOutcome) : Dict :=
  match r2 with
  | .raised => stats
  | .okBadJson => stats
  | .notOk => stats
  | .okJson v =>
      if jvTruthy v then
        match v with
        | .arr rels =>
            match buildChangelog rels with
            | .error _ => stats
            | .ok cl =>
                let stats1 := dset stats "changelog" (.pdict cl)
                match sumDownloads rels with
                | .error _ => stats1
                | .ok n => dset stats1 "downloads" (.num n)
        | _ => stats
      else stats

/-- build_registry.py lines 56-101.  `r1` is the repository-metadata
request, `r2` the releases request; both sit inside one try block, so a
raise during the first request (or its body handling) prevents the
second request from ever being issued. -/
def get_github_stats (owner repo : String) (r1 r2 : FetchOutcome) : Dict :=
  if owner.data.isEmpty || repo.data.isEmpty then []
  else
    match r1 with
    | .raised => []
    | .okBadJson => []
    | .notOk => statsReleases [] r2
    | .okJson v =>
        match v with
        | .obj fs => statsReleases (statsAfterRepo fs []) r2
        | _ => []

/-! ### The per-module merge (build_registry.py lines 113-152)

Inside the per-file try block the script parses the file, resolves the
repository identity, optionally merges manifest data and stats into the
record, applies defaults, and appends the record.  All of that is
embedded below; any modelled raise before the append makes the module
contribute nothing (`none`). -/

/-- `p.get("description", p.get("slug"))` for one permission entry; a
non-dict entry raises AttributeError. -/
def permFeature : JsonValue → Except Unit JsonValue
  | .obj fs => .ok ((dget fs "description").getD ((dget fs "slug").getD .null))
  | _ => .error ()

/-- The list comprehension over `manifest.get("permissions", [])`.  It
is only evaluated when that value is truthy; iterating a truthy
non-list value always ends in a raise (strings and dicts yield
elements without a `.get`, numbers are not iterable). -/
def permFeatures : JsonValue → Except Unit (List JsonValue)
  | .arr ps => ps.mapM permFeature
  | _ => .error ()

/-- Line 126: `module_data["version"] = manifest.get("version",
module_data.get("version", "0.0.0"))`.  A key present in the manifest
wins even when its value is null. -/
def manifestStep1 (m man : Dict) : Dict :=
  dset m "version" ((dget man "version").getD ((dget m "version").getD (.str "0.0.0")))

/-- Line 127: `module_data["name"] = manifest.get("name",
module_data.get("name"))` (the one-argument `get` falls back to None). -/
def manifestStep2 (m man : Dict) : Dict :=
  let m1 := manifestStep1 m man
  dset m1 "name" ((dget man "name").getD ((dget m1 "name").getD .null))

/-- Line 128: same for `description`. -/
def manifestStep3 (m man : Dict) : Dict :=
  let m2 := manifestStep2 m man
  dset m2 "description" ((dget man "description").getD ((dget m2 "description").getD .null))

/-- Lines 126-132: the manifest merge, run only when the fetched
manifest is truthy.  Lines 131-132 derive `features` from the
permission list when the record has no `features` key. -/
def mergeManifest (m man : Dict) : Except Unit Dict :=
  let m3 := manifestStep3 m man
  if !(dcontains m3 "features") && jvTruthy ((dget man "permissions").getD .null) then
    match permFeatures ((dget man "permissions").getD (.arr [])) with
    | .ok feats => .ok (dset m3 "features" (.arr feats))
    | .error e => .error e
  else .ok m3

/-- Lines 136-137: `if stats.get("stars") is not None:
module_data["stars"] = stats["stars"]`. -/
def statsStep1 (m st : Dict) : Dict :=
  match dget st "stars" with
  | some .null => m
  | some v => dset m "stars" v
  | none => m

/-- Lines 138-139: same for `downloads`. -/
def statsStep2 (m st : Dict) : Dict :=
  match dget st "downloads" with
  | some .null => statsStep1 m st
  | some v => dset (statsStep1 m st) "downloads" v
  | none => statsStep1 m st

/-- Lines 140-141: `if stats.get("changelog"): ...` (truthiness, not a
None test). -/
def statsStep3 (m st : Dict) : Dict :=
  if jvTruthy ((dget st "changelog").getD .null) then
    dset (statsStep2 m st) "changelog" ((dget st "changelog").getD .null)
  else statsStep2 m st

/-- Lines 142-143: same for `updated_at`. -/
def mergeStats (m st : Dict) : Dict :=
  if jvTruthy ((dget st "updated_at").getD .null) then
    dset (statsStep3 m st) "updated_at" ((dget st "updated_at").getD .null)
  else statsStep3 m st

/-- Lines 146-149: the four `setdefault` calls. -/
def setDefaults (m : Dict) : Dict :=
  dsetdefault (dsetdefault (dsetdefault (dsetdefault m "version" (.str "0.0.0"))
    "stars" (.num 0)) "downloads" (.num 0)) "verified" (.bool false)

/-- Lines 120-149 for an identified repository: manifest merge when the
fetched manifest is truthy (a truthy non-dict manifest raises on
`manifest.get`), then the stats merge, then the defaults. -/
def mergeRecord (m : Dict) (man : JsonValue) (st : Dict) : Except Unit Dict :=
  match (if jvTruthy man then
           (match man with
            | .obj fs => mergeManifest m fs
            | _ => .error ())
         else .ok m) with
  | .error e => .error e
  | .ok m1 => .ok (setDefaults (mergeStats m1 st))

/-- Lines 117-118 applied to `module_data.get("repository", "")`: the
value reaching `get_repo_info` need not be a string.  `not repo_url` is
tested first, so every falsy value degrades to the empty identity;
membership of `"github.com"` in a truthy list or dict is a real
membership test, a truthy number or True raises TypeError, and a
container that does contain the marker string goes on to raise
AttributeError at `.rstrip`. -/
def processRepoUrl : JsonValue → Except Unit (Option String × Option String)
  | .str s => get_repo_info s
  | .null => .ok (none, none)
  | .bool b => if b then .error () else .ok (none, none)
  | .num n => if n == 0 then .ok (none, none) else .error ()
  | .arr xs =>
      if xs.isEmpty then .ok (none, none)
      else if xs.any (fun v => keyEq v (.str "github.com")) then .error ()
      else .ok (none, none)
  | .obj fs =>
      if fs.isEmpty then .ok (none, none)
      else if fs.any (fun kv => kv.1 == "github.com") then .error ()
      else .ok (none, none)
  | .pdict ps =>
      if ps.isEmpty then .ok (none, none)
      else if ps.any (fun kv => keyEq kv.1 (.str "github.com")) then .error ()
      else .ok (none, none)

/-- Lines 113-155 for one module file: the parse outcome of the file,
plus oracles for the two fetchers (`fM` abstracts
`get_manifest_from_repo`, `fS` abstracts `get_github_stats`; neither
ever raises).  The result is the record appended to `modules`, or
`none` when the file is skipped.  The `print` of `module_data["name"]`
happens after the append, so a record lacking `name` is still
appended. -/
def processModule (parsed : Except Unit Dict)
    (fM : String → String → JsonValue) (fS : String → String → Dict) :
    Option Dict :=
  match parsed with
  | .error _ => none
  | .ok m =>
      match processRepoUrl ((dget m "repository").getD (.str "")) with
      | .error _ => none
      | .ok (owner?, repo?) =>
          match owner?, repo? with
          | some o, some r =>
              if o.data.isEmpty || r.data.isEmpty then some (setDefaults m)
              else
                match mergeRecord m (fM o r) (fS o r) with
                | .error _ => none
                | .ok rec => some rec
          | _, _ => some (setDefaults m)

/-! ### The assembler (build_registry.py lines 104-167)

`sorted(MODULES_DIR.glob("*.json"))` sorts the discovered files; within
one directory the Path order is code-point lexicographic order of the
filenames.  The directory contents are modelled as a list of
(filename, parse outcome) pairs in arbitrary discovery order. -/

abbrev FileEntry := String × Except Unit Dict

/-- Code-point lexicographic comparison of strings (Python `str` <=). -/
def strLeb : List Char → List Char → Bool
  | [], _ => true
  | _ :: _, [] => false
  | a :: as, b :: bs =>
      if a.toNat < b.toNat then true
      else if b.toNat < a.toNat then false
      else strLeb as bs

/-- Insert one file into an already sorted list (insertion sort step). -/
def insertFile (f : FileEntry) : List FileEntry → List FileEntry
  | [] => [f]
  | g :: gs => if strLeb g.1.data f.1.data then g :: insertFile f gs else f :: g :: gs

/-- `sorted(...)`: deterministic lexicographic order by filename. -/
def sortFiles (l : List FileEntry) : List FileEntry := l.foldr insertFile []

/-- Lines 104-162: process the sorted files, collect every appended
record, and assemble the registry document.  Note the top-level key is
named `version` (line 159), and `generated_at` is
`datetime.utcnow().isoformat() + "Z"` with the timestamp supplied by
the environment. -/
def build_registry (files : List FileEntry)
    (fM : String → String → JsonValue) (fS : String → String → Dict)
    (now : String) : Dict :=
  let modules := (sortFiles files).filterMap (fun fp => processModule fp.2 fM fS)
  [("version", .str "1.0"),
   ("generated_at", .str (now ++ "Z")),
   ("modules", .arr (modules.map JsonValue.obj))]

/-! ### Dictionary lemmas -/

theorem dget_dset_self (d : Dict) (k : String) (v : JsonValue) :
    dget (dset d k v) k = some v := by
  induction d with
  | nil => simp [dset, dget]
  | cons kv rest ih =>
      obtain ⟨k1, v1⟩ := kv
      by_cases h : k1 = k
      · simp [dset, h, dget]
      · simp [dset, h, dget, ih]

theorem dget_dset_ne (d : Dict) {k1 k : String} (h : k1 ≠ k) (v : JsonValue) :
    dget (dset d k1 v) k = dget d k := by
  induction d with
  | nil => simp [dset, dget, h]
  | cons kv rest ih =>
      obtain ⟨k2, v2⟩ := kv
      by_cases h2 : k2 = k1
      · subst h2; simp [dset, dget, h]
      · simp only [dset, if_neg h2]
        by_cases h3 : k2 = k
        · simp [dget, h3]
        · simp [dget, h3, ih]

theorem dget_append (d e : Dict) (k : String) :
    dget (d ++ e) k = (dget d k).or (dget e k) := by
  induction d with
  | nil => simp [dget]
  | cons kv rest ih =>
      obtain ⟨k1, v1⟩ := kv
      by_cases h : k1 = k
      · simp [dget, h]
      · simp [dget, h, ih]

theorem dget_dsetdefault_self (d : Dict) (k : String) (v : JsonValue) :
    dget (dsetdefault d k v) k = some ((dget d k).getD v) := by
  unfold dsetdefault dcontains
  by_cases h : (dget d k).isSome
  · obtain ⟨w, hw⟩ := Option.isSome_iff_exists.mp h
    simp [h, hw]
  · have hn : dget d k = none := Option.not_isSome_iff_eq_none.mp h
    simp [h, dget_append, hn, dget]

theorem dget_dsetdefault_ne (d : Dict) {k1 k : String} (h : k1 ≠ k) (v : JsonValue) :
    dget (dsetdefault d k1 v) k = dget d k := by
  unfold dsetdefault
  by_cases hc : dcontains d k1
  · simp [hc]
  · simp [hc, dget_append, dget, h]

/-! ### Per-key behaviour of setDefaults -/

theorem dget_setDefaults_version (m : Dict) :
    dget (setDefaults m) "version" = some ((dget m "version").getD (.str "0.0.0")) := by
  unfold setDefaults
  rw [dget_dsetdefault_ne _ (by decide), dget_dsetdefault_ne _ (by decide),
    dget_dsetdefault_ne _ (by decide), dget_dsetdefault_self]

theorem dget_setDefaults_stars (m : Dict) :
    dget (setDefaults m) "stars" = some ((dget m "stars").getD (.num 0)) := by
  unfold setDefaults
  rw [dget_dsetdefault_ne _ (by decide), dget_dsetdefault_ne _ (by decide),
    dget_dsetdefault_self, dget_dsetdefault_ne _ (by decide)]

theorem dget_setDefaults_downloads (m : Dict) :
    dget (setDefaults m) "downloads" = some ((dget m "downloads").getD (.num 0)) := by
  unfold setDefaults
  rw [dget_dsetdefault_ne _ (by decide), dget_dsetdefault_self,
    dget_dsetdefault_ne _ (by decide), dget_dsetdefault_ne _ (by decide)]

theorem dget_setDefaults_verified (m : Dict) :
    dget (setDefaults m) "verified" = some ((dget m "verified").getD (.bool false)) := by
  unfold setDefaults
  rw [dget_dsetdefault_self, dget_dsetdefault_ne _ (by decide),
    dget_dsetdefault_ne _ (by decide), dget_dsetdefault_ne _ (by decide)]

theorem dget_setDefaults_other (m : Dict) {k : String}
    (h1 : "version" ≠ k) (h2 : "stars" ≠ k) (h3 : "downloads" ≠ k)
    (h4 : "verified" ≠ k) :
    dget (setDefaults m) k = dget m k := by
  unfold setDefaults
  rw [dget_dsetdefault_ne _ h4, dget_dsetdefault_ne _ h3,
    dget_dsetdefault_ne _ h2, dget_dsetdefault_ne _ h1]

/-! ### Claim C4 (Repository Locator totality) -/

/-- C4: the Repository Locator is NOT total.  Inputs that are empty or
lack the `github.com` marker do return the empty identity, but an input
that contains the marker yet splits into fewer than two path segments
(the claim's own example `"github.com"`) raises IndexError at
`parts[-2]` instead of returning.  This theorem evaluates
`get_repo_info` at both kinds of input, exhibiting the raise. -/
theorem c4_locator_totality :
    get_repo_info "" = .ok (none, none) ∧
    get_repo_info "not a url" = .ok (none, none) ∧
    get_repo_info "https://gitlab.com/a/b" = .ok (none, none) ∧
    get_repo_info "github.com" = .error () :=
  ⟨rfl, rfl, rfl, rfl⟩

/-! ### Claim C10 (Locator normalization) -/

/-- C10: stripping is NOT limited to the literal suffix `".git"`.
Python `rstrip(".git")` removes all trailing characters drawn from the
set `{'.','g','i','t'}`, so the final segment `"api"` becomes `"ap"`
and `"plugit"` becomes `"plu"`; only accidentally does a clone URL
ending in the literal `".git"` come out right.  This theorem evaluates
`get_repo_info` at the claim's own example inputs. -/
theorem c10_locator_normalization :
    get_repo_info "https://github.com/acme/api" = .ok (some "acme", some "ap") ∧
    get_repo_info "https://github.com/acme/plugit" = .ok (some "acme", some "plu") ∧
    get_repo_info "https://github.com/acme/foo.git" = .ok (some "acme", some "foo") ∧
    get_repo_info "https://github.com/acme/foo/" = .ok (some "acme", some "foo") :=
  ⟨rfl, rfl, rfl, rfl⟩

/-! ### Claim C5 (Remote Manifest Fetcher fallthrough) -/

/-- Branch responses for the C5 counterexample: the request for `main`
raises a network error while `master` would return a manifest that
parses fine. -/
def c5resp : String → FetchOutcome :=
  fun b => if b = "main" then .raised else .okJson (.obj [("version", .str "9.9.9")])

/-- C5 counterexample: a network error on the `main` candidate does NOT
fall through to `master`.  Even though the `master` response carries a
valid parsed manifest, the fetcher returns the empty result, because
the try block wraps the whole loop. -/
theorem c5_counterexample :
    c5resp "master" = .okJson (.obj [("version", .str "9.9.9")]) ∧
    get_manifest_from_repo c5resp = .obj [] :=
  ⟨rfl, rfl⟩

/-- C5 amended: the fetcher attempts `main` then `master` and never
propagates an exception, but only a non-success STATUS falls through to
the next candidate; a raised network error or body-parse error on a
candidate aborts the remaining candidates and yields the empty result.
The theorem characterises the fetcher completely over the outcome of
each branch request. -/
theorem c5_fetcher_fallthrough (resp : String → FetchOutcome) :
    get_manifest_from_repo resp =
      match resp "main" with
      | .okJson v => v
      | .raised => .obj []
      | .okBadJson => .obj []
      | .notOk =>
          match resp "master" with
          | .okJson v => v
          | _ => .obj [] := by
  unfold get_manifest_from_repo
  rcases h1 : resp "main" <;> simp only [tryBranches, h1]
  rcases h2 : resp "master" <;> simp only [tryBranches, h2]

/-! ### Claim C9 (Output document shape) -/

/-- C9 counterexample: the output document has no field named
`format_version`; the format-version value `"1.0"` sits under the key
`version` instead. -/
theorem c9_counterexample :
    dget (build_registry [] (fun _ _ => .obj []) (fun _ _ => []) "2026-02-03T04:05:06") "format_version" = none ∧
    dget (build_registry [] (fun _ _ => .obj []) (fun _ _ => []) "2026-02-03T04:05:06") "version" = some (.str "1.0") :=
  ⟨rfl, rfl⟩

/-- C9 amended: for every run the single output document is an object
whose `version` field (not `format_version`) is `"1.0"`, whose
`generated_at` field is the generation timestamp suffixed with `Z`, and
whose `modules` field is the ordered sequence of produced final
records. -/
theorem c9_output_shape (files : List FileEntry)
    (fM : String → String → JsonValue) (fS : String → String → Dict)
    (now : String) :
    dget (build_registry files fM fS now) "version" = some (.str "1.0") ∧
    dget (build_registry files fM fS now) "generated_at" = some (.str (now ++ "Z")) ∧
    dget (build_registry files fM fS now) "modules" =
      some (.arr (((sortFiles files).filterMap
        (fun fp => processModule fp.2 fM fS)).map JsonValue.obj)) :=
  ⟨rfl, rfl, rfl⟩

/-! ### Claim C2 (merge scenario) -/

/-- The claim's local record. -/
def c2local : Dict :=
  [("name", .str "foo"), ("repository", .str "https://github.com/acme/foo")]

/-- The claim's fetched manifest. -/
def c2manifest : JsonValue :=
  .obj [("version", .str "2.1.0"), ("permissions", .arr [.obj [("slug", .str "net")]])]

/-- The claim's fetched stats. -/
def c2stats : Dict := [("stars", .num 42), ("downloads", .num 0)]

/-- C2 counterexample: the produced record is NOT exactly the seven
fields the claim lists; the merge introduces an extra `description`
entry holding an explicit null, because line 128 assigns
`manifest.get("description", module_data.get("description"))`
unconditionally and both sides are absent. -/
theorem c2_counterexample :
    (processModule (.ok c2local) (fun _ _ => c2manifest) (fun _ _ => c2stats)).map
      (fun r => dget r "description") = some (some .null) :=
  rfl

/-- C2 amended: the scenario produces exactly the claimed record PLUS
one extra entry `description: null`; `features` is derived from the
permission slug, the explicit stats value 0 does overwrite `downloads`,
and `verified` defaults to false. -/
theorem c2_merge_scenario :
    processModule (.ok c2local) (fun _ _ => c2manifest) (fun _ _ => c2stats) =
      some [("name", .str "foo"),
            ("repository", .str "https://github.com/acme/foo"),
            ("version", .str "2.1.0"),
            ("description", .null),
            ("features", .arr [.str "net"]),
            ("stars", .num 42),
            ("downloads", .num 0),
            ("verified", .bool false)] :=
  rfl

/-! ### Claim C6 (Remote Statistics Fetcher independence) -/

/-- A well-formed release used in the C6 refutation. -/
def c6release : JsonValue :=
  .obj [("tag_name", .str "v1"), ("body", .str "notes"),
        ("assets", .arr [.obj [("download_count", .num 3)]])]

/-- C6 counterexample: the two requests are NOT independent.  With the
same releases response, a non-success repository-metadata response still
lets the releases request populate `changelog`/`downloads`, but an
EXCEPTION in the repository-metadata request yields the empty result —
the releases request is never issued, so its fields stay absent. -/
theorem c6_counterexample :
    get_github_stats "acme" "mod" .raised (.okJson (.arr [c6release])) = [] ∧
    get_github_stats "acme" "mod" .notOk (.okJson (.arr [c6release])) =
      [("changelog", .pdict [(.str "v1", .str "notes")]), ("downloads", .num 3)] :=
  ⟨rfl, rfl⟩

/-- C6 amended: the two requests are independent only with respect to
non-success responses — a non-success status for either one does not
stop the other from populating its fields — while a raised exception in
the repository-metadata request (or parsing its body) prevents the
releases request entirely and yields the empty result, and a raised
exception around the releases request yields the partially populated
stats; no exception ever propagates to the caller. -/
theorem c6_stats_independence (o r : String)
    (ho : o.data.isEmpty = false) (hr : r.data.isEmpty = false) :
    (∀ r2, get_github_stats o r .raised r2 = [] ∧
           get_github_stats o r .okBadJson r2 = []) ∧
    (∀ rels cl dl, rels.isEmpty = false → buildChangelog rels = .ok cl →
        sumDownloads rels = .ok dl →
        get_github_stats o r .notOk (.okJson (.arr rels)) =
          [("changelog", .pdict cl), ("downloads", .num dl)]) ∧
    (∀ fs, get_github_stats o r (.okJson (.obj fs)) .notOk =
        [("stars", (dget fs "stargazers_count").getD (.num 0)),
         ("updated_at", (dget fs "pushed_at").getD .null)]) ∧
    (∀ fs, get_github_stats o r (.okJson (.obj fs)) .raised =
        [("stars", (dget fs "stargazers_count").getD (.num 0)),
         ("updated_at", (dget fs "pushed_at").getD .null)]) := by
  refine ⟨fun r2 => ⟨?_, ?_⟩, fun rels cl dl hne hcl hdl => ?_, fun fs => ?_, fun fs => ?_⟩
  · simp [get_github_stats, ho, hr]
  · simp [get_github_stats, ho, hr]
  · simp only [get_github_stats, ho, hr, Bool.or_self, Bool.false_eq_true, if_false,
      statsReleases, jvTruthy, hne, Bool.not_false, if_true, hcl, hdl]
    simp [dset]
  · simp [get_github_stats, ho, hr, statsReleases, statsAfterRepo, dset]
  · simp [get_github_stats, ho, hr, statsReleases, statsAfterRepo, dset]

/-- C6 witness: the amended theorem applied at concrete inputs — a
non-success metadata response with one concrete release, and a concrete
metadata body followed by a raised releases request. -/
theorem c6_witness :
    get_github_stats "acme" "mod" .notOk (.okJson (.arr [c6release])) =
      [("changelog", .pdict [(.str "v1", .str "notes")]), ("downloads", .num 3)] ∧
    get_github_stats "acme" "mod"
        (.okJson (.obj [("stargazers_count", .num 7), ("pushed_at", .str "2024-01-01")]))
        .raised =
      [("stars", .num 7), ("updated_at", .str "2024-01-01")] := by
  have H := c6_stats_independence "acme" "mod" rfl rfl
  exact ⟨H.2.1 [c6release] _ _ rfl rfl rfl,
         H.2.2.2 [("stargazers_count", .num 7), ("pushed_at", .str "2024-01-01")]⟩

/-! ### Per-key behaviour of the manifest merge -/

theorem dget_manifestStep3_other (m man : Dict) {k : String}
    (h1 : "version" ≠ k) (h2 : "name" ≠ k) (h3 : "description" ≠ k) :
    dget (manifestStep3 m man) k = dget m k := by
  simp only [manifestStep3, manifestStep2, manifestStep1]
  rw [dget_dset_ne _ h3, dget_dset_ne _ h2, dget_dset_ne _ h1]

theorem dget_manifestStep3_version (m man : Dict) :
    dget (manifestStep3 m man) "version" =
      some ((dget man "version").getD ((dget m "version").getD (.str "0.0.0"))) := by
  simp only [manifestStep3, manifestStep2, manifestStep1]
  rw [dget_dset_ne _ (by decide), dget_dset_ne _ (by decide), dget_dset_self]

theorem dget_manifestStep3_name (m man : Dict) :
    dget (manifestStep3 m man) "name" =
      some ((dget man "name").getD ((dget m "name").getD .null)) := by
  simp only [manifestStep3, manifestStep2, manifestStep1]
  rw [dget_dset_ne _ (by decide), dget_dset_self, dget_dset_ne _ (by decide)]

theorem dget_manifestStep3_description (m man : Dict) :
    dget (manifestStep3 m man) "description" =
      some ((dget man "description").getD ((dget m "description").getD .null)) := by
  simp only [manifestStep3, manifestStep2, manifestStep1]
  rw [dget_dset_self, dget_dset_ne _ (by decide), dget_dset_ne _ (by decide)]

theorem mergeManifest_ok_dget (m man m1 : Dict) (h : mergeManifest m man = .ok m1)
    {k : String} (hk : "features" ≠ k) :
    dget m1 k = dget (manifestStep3 m man) k := by
  simp only [mergeManifest] at h
  split at h
  · split at h
    next feats heq =>
        injection h with h2
        rw [← h2, dget_dset_ne _ hk]
    next e heq => cases h
  · injection h with h2
    rw [← h2]

theorem mergeManifest_other (m man m1 : Dict) (h : mergeManifest m man = .ok m1)
    {k : String} (h1 : "version" ≠ k) (h2 : "name" ≠ k) (h3 : "description" ≠ k)
    (h4 : "features" ≠ k) :
    dget m1 k = dget m k := by
  rw [mergeManifest_ok_dget m man m1 h h4, dget_manifestStep3_other m man h1 h2 h3]

theorem mergeManifest_version (m man m1 : Dict) (h : mergeManifest m man = .ok m1) :
    dget m1 "version" =
      some ((dget man "version").getD ((dget m "version").getD (.str "0.0.0"))) := by
  rw [mergeManifest_ok_dget m man m1 h (by decide), dget_manifestStep3_version]

theorem mergeManifest_name (m man m1 : Dict) (h : mergeManifest m man = .ok m1) :
    dget m1 "name" =
      some ((dget man "name").getD ((dget m "name").getD .null)) := by
  rw [mergeManifest_ok_dget m man m1 h (by decide), dget_manifestStep3_name]

theorem mergeManifest_description (m man m1 : Dict) (h : mergeManifest m man = .ok m1) :
    dget m1 "description" =
      some ((dget man "description").getD ((dget m "description").getD .null)) := by
  rw [mergeManifest_ok_dget m man m1 h (by decide), dget_manifestStep3_description]

/-! ### Per-key behaviour of the stats merge -/

theorem dget_statsStep1_ne (m st : Dict) {k : String} (h : "stars" ≠ k) :
    dget (statsStep1 m st) k = dget m k := by
  unfold statsStep1
  split
  · rfl
  · rw [dget_dset_ne _ h]
  · rfl

theorem dget_statsStep2_ne (m st : Dict) {k : String} (h : "downloads" ≠ k) :
    dget (statsStep2 m st) k = dget (statsStep1 m st) k := by
  unfold statsStep2
  split
  · rfl
  · rw [dget_dset_ne _ h]
  · rfl

theorem dget_statsStep3_ne (m st : Dict) {k : String} (h : "changelog" ≠ k) :
    dget (statsStep3 m st) k = dget (statsStep2 m st) k := by
  unfold statsStep3
  split
  · rw [dget_dset_ne _ h]
  · rfl

theorem dget_mergeStats_ne (m st : Dict) {k : String} (h : "updated_at" ≠ k) :
    dget (mergeStats m st) k = dget (statsStep3 m st) k := by
  unfold mergeStats
  split
  · rw [dget_dset_ne _ h]
  · rfl

theorem dget_mergeStats_other (m st : Dict) {k : String}
    (h1 : "stars" ≠ k) (h2 : "downloads" ≠ k) (h3 : "changelog" ≠ k)
    (h4 : "updated_at" ≠ k) :
    dget (mergeStats m st) k = dget m k := by
  rw [dget_mergeStats_ne m st h4, dget_statsStep3_ne m st h3,
    dget_statsStep2_ne m st h2, dget_statsStep1_ne m st h1]

theorem dget_mergeStats_stars (m st : Dict) :
    dget (mergeStats m st) "stars" =
      (match dget st "stars" with
       | none => dget m "stars"
       | some .null => dget m "stars"
       | some v => some v) := by
  rw [dget_mergeStats_ne m st (by decide), dget_statsStep3_ne m st (by decide),
    dget_statsStep2_ne m st (by decide)]
  unfold statsStep1
  rcases h : dget st "stars" with _ | v
  · rfl
  · cases v
    · rfl
    all_goals exact dget_dset_self m "stars" _

theorem dget_mergeStats_downloads (m st : Dict) :
    dget (mergeStats m st) "downloads" =
      (match dget st "downloads" with
       | none => dget m "downloads"
       | some .null => dget m "downloads"
       | some v => some v) := by
  rw [dget_mergeStats_ne m st (by decide), dget_statsStep3_ne m st (by decide)]
  unfold statsStep2
  rcases h : dget st "downloads" with _ | v
  · exact dget_statsStep1_ne m st (by decide)
  · cases v
    · exact dget_statsStep1_ne m st (by decide)
    all_goals exact dget_dset_self _ "downloads" _

theorem dget_mergeStats_changelog_none (m st : Dict)
    (h : dget st "changelog" = none) :
    dget (mergeStats m st) "changelog" = dget m "changelog" := by
  rw [dget_mergeStats_ne m st (by decide)]
  unfold statsStep3
  rw [h]
  simp only [Option.getD_none, jvTruthy, Bool.false_eq_true, if_false]
  rw [dget_statsStep2_ne m st (by decide), dget_statsStep1_ne m st (by decide)]

theorem dget_mergeStats_updated_none (m st : Dict)
    (h : dget st "updated_at" = none) :
    dget (mergeStats m st) "updated_at" = dget m "updated_at" := by
  unfold mergeStats
  rw [h]
  simp only [Option.getD_none, jvTruthy, Bool.false_eq_true, if_false]
  rw [dget_statsStep3_ne m st (by decide), dget_statsStep2_ne m st (by decide),
    dget_statsStep1_ne m st (by decide)]

/-! ### Shape of a successful mergeRecord -/

theorem mergeRecord_ok_elim (m : Dict) (man : JsonValue) (st fin : Dict)
    (h : mergeRecord m man st = .ok fin) :
    ∃ m1, fin = setDefaults (mergeStats m1 st) ∧
      ((jvTruthy man = false ∧ m1 = m) ∨
       ∃ fs, man = .obj fs ∧ mergeManifest m fs = .ok m1) := by
  unfold mergeRecord at h
  rcases htr : jvTruthy man with _ | _
  · rw [htr] at h
    simp only [Bool.false_eq_true, if_false] at h
    injection h with h2
    exact ⟨m, h2.symm, .inl ⟨rfl, rfl⟩⟩
  · rw [htr] at h
    simp only [if_true] at h
    cases man with
    | null => simp [jvTruthy] at htr
    | bool b => exact nomatch h
    | num n => exact nomatch h
    | str s => exact nomatch h
    | arr xs => exact nomatch h
    | pdict ps => exact nomatch h
    | obj fs =>
        have h2 : (match mergeManifest m fs with
            | Except.error e => Except.error e
            | Except.ok m1 => Except.ok (setDefaults (mergeStats m1 st))) =
            Except.ok fin := h
        rcases hmm : mergeManifest m fs with e | m1
        · rw [hmm] at h2
          exact nomatch h2
        · rw [hmm] at h2
          injection h2 with h3
          exact ⟨m1, h3.symm, .inr ⟨fs, rfl, hmm⟩⟩

/-! ### Claim C1 (Record Merger precedence) -/

/-- C1 counterexample: an explicitly null manifest `name` DOES erase an
existing local value.  `manifest.get("name", fallback)` returns the
stored value whenever the key is present — even when that value is null
— so the local name "local" ends up null in the final record. -/
theorem c1_counterexample :
    mergeRecord [("name", .str "local")] (.obj [("name", .null)]) [] =
      .ok [("name", .null), ("version", .str "0.0.0"), ("description", .null),
           ("stars", .num 0), ("downloads", .num 0), ("verified", .bool false)] :=
  rfl

/-- C1 amended: each stats field is independent — for `stars` and
`downloads` an absent or null stats value leaves the local value (or
its 0 default) intact, and an absent `changelog`/`updated_at` leaves
the local value untouched — and an ABSENT manifest `name`/`description`
never erases an existing local value; however a manifest name that is
present with an explicit null value does overwrite the local value with
null (the part of the original claim refuted by the counterexample). -/
theorem c1_merger_precedence (m man st fin : Dict)
    (h : mergeRecord m (.obj man) st = .ok fin) :
    (dget st "stars" = none →
      dget fin "stars" = some ((dget m "stars").getD (.num 0))) ∧
    (dget st "stars" = some .null →
      dget fin "stars" = some ((dget m "stars").getD (.num 0))) ∧
    (dget st "downloads" = none →
      dget fin "downloads" = some ((dget m "downloads").getD (.num 0))) ∧
    (dget st "downloads" = some .null →
      dget fin "downloads" = some ((dget m "downloads").getD (.num 0))) ∧
    (dget st "changelog" = none → dget fin "changelog" = dget m "changelog") ∧
    (dget st "updated_at" = none → dget fin "updated_at" = dget m "updated_at") ∧
    (∀ v, dget man "name" = none → dget m "name" = some v →
      dget fin "name" = some v) ∧
    (∀ v, dget man "description" = none → dget m "description" = some v →
      dget fin "description" = some v) ∧
    (man ≠ [] → dget man "name" = some .null → dget fin "name" = some .null) := by
  obtain ⟨m1, hfin, hcase⟩ := mergeRecord_ok_elim m (.obj man) st fin h
  subst hfin
  have hm1stars : dget m1 "stars" = dget m "stars" := by
    rcases hcase with ⟨_, rfl⟩ | ⟨fs, hfs, hmm⟩
    · rfl
    · cases hfs
      exact mergeManifest_other m man m1 hmm (by decide) (by decide) (by decide) (by decide)
  have hm1downloads : dget m1 "downloads" = dget m "downloads" := by
    rcases hcase with ⟨_, rfl⟩ | ⟨fs, hfs, hmm⟩
    · rfl
    · cases hfs
      exact mergeManifest_other m man m1 hmm (by decide) (by decide) (by decide) (by decide)
  have hm1changelog : dget m1 "changelog" = dget m "changelog" := by
    rcases hcase with ⟨_, rfl⟩ | ⟨fs, hfs, hmm⟩
    · rfl
    · cases hfs
      exact mergeManifest_other m man m1 hmm (by decide) (by decide) (by decide) (by decide)
  have hm1updated : dget m1 "updated_at" = dget m "updated_at" := by
    rcases hcase with ⟨_, rfl⟩ | ⟨fs, hfs, hmm⟩
    · rfl
    · cases hfs
      exact mergeManifest_other m man m1 hmm (by decide) (by decide) (by decide) (by decide)
  refine ⟨fun hs => ?_, fun hs => ?_, fun hs => ?_, fun hs => ?_, fun hs => ?_,
    fun hs => ?_, fun v hman hm => ?_, fun v hman hm => ?_, fun hne hman => ?_⟩
  · rw [dget_setDefaults_stars, dget_mergeStats_stars, hs, hm1stars]
  · rw [dget_setDefaults_stars, dget_mergeStats_stars, hs, hm1stars]
  · rw [dget_setDefaults_downloads, dget_mergeStats_downloads, hs, hm1downloads]
  · rw [dget_setDefaults_downloads, dget_mergeStats_downloads, hs, hm1downloads]
  · rw [dget_setDefaults_other _ (by decide) (by decide) (by decide) (by decide),
      dget_mergeStats_changelog_none _ _ hs, hm1changelog]
  · rw [dget_setDefaults_other _ (by decide) (by decide) (by decide) (by decide),
      dget_mergeStats_updated_none _ _ hs, hm1updated]
  · rw [dget_setDefaults_other _ (by decide) (by decide) (by decide) (by decide),
      dget_mergeStats_other _ _ (by decide) (by decide) (by decide) (by decide)]
    rcases hcase with ⟨_, rfl⟩ | ⟨fs, hfs, hmm⟩
    · exact hm
    · cases hfs
      rw [mergeManifest_name m man m1 hmm, hman, hm]
      rfl
  · rw [dget_setDefaults_other _ (by decide) (by decide) (by decide) (by decide),
      dget_mergeStats_other _ _ (by decide) (by decide) (by decide) (by decide)]
    rcases hcase with ⟨_, rfl⟩ | ⟨fs, hfs, hmm⟩
    · exact hm
    · cases hfs
      rw [mergeManifest_description m man m1 hmm, hman, hm]
      rfl
  · rw [dget_setDefaults_other _ (by decide) (by decide) (by decide) (by decide),
      dget_mergeStats_other _ _ (by decide) (by decide) (by decide) (by decide)]
    rcases hcase with ⟨htr, rfl⟩ | ⟨fs, hfs, hmm⟩
    · exact absurd (by simpa [jvTruthy, List.isEmpty_iff] using htr) hne
    · cases hfs
      rw [mergeManifest_name m man m1 hmm, hman]
      rfl

/-- Inputs for the first C1 witness instance: a truthy manifest with
`name`/`description` absent and stats with every field absent. -/
def c1mA : Dict :=
  [("name", .str "nm"), ("description", .str "ds"), ("stars", .num 7),
   ("downloads", .num 8), ("changelog", .str "cl"), ("updated_at", .str "up")]

/-- Manifest for the first C1 witness instance. -/
def c1manA : Dict := [("version", .str "3.0.0")]

/-- Inputs for the second C1 witness instance: a manifest with an
explicitly null `name` and stats with explicitly null `stars` and
`downloads`. -/
def c1mB : Dict := [("name", .str "loc"), ("stars", .num 1), ("downloads", .num 2)]

/-- Manifest for the second C1 witness instance. -/
def c1manB : Dict := [("name", .null)]

/-- Stats for the second C1 witness instance. -/
def c1stB : Dict := [("stars", .null), ("downloads", .null)]

/-- C1 witness: the amended theorem applied at two concrete merges —
one discharging the absence hypotheses, one discharging the
explicit-null hypotheses. -/
theorem c1_witness :
    (mergeRecord c1mA (.obj c1manA) [] =
      .ok [("name", .str "nm"), ("description", .str "ds"), ("stars", .num 7),
           ("downloads", .num 8), ("changelog", .str "cl"), ("updated_at", .str "up"),
           ("version", .str "3.0.0"), ("verified", .bool false)]) ∧
    (mergeRecord c1mB (.obj c1manB) c1stB =
      .ok [("name", .null), ("stars", .num 1), ("downloads", .num 2),
           ("version", .str "0.0.0"), ("description", .null), ("verified", .bool false)]) ∧
    (dget [("name", .str "nm"), ("description", .str "ds"), ("stars", .num 7),
           ("downloads", .num 8), ("changelog", .str "cl"), ("updated_at", .str "up"),
           ("version", .str "3.0.0"), ("verified", .bool false)] "stars" = some (.num 7)) ∧
    (dget [("name", .str "nm"), ("description", .str "ds"), ("stars", .num 7),
           ("downloads", .num 8), ("changelog", .str "cl"), ("updated_at", .str "up"),
           ("version", .str "3.0.0"), ("verified", .bool false)] "name" = some (.str "nm")) ∧
    (dget [("name", .null), ("stars", .num 1), ("downloads", .num 2),
           ("version", .str "0.0.0"), ("description", .null), ("verified", .bool false)]
      "stars" = some (.num 1)) ∧
    (dget [("name", .null), ("stars", .num 1), ("downloads", .num 2),
           ("version", .str "0.0.0"), ("description", .null), ("verified", .bool false)]
      "name" = some .null) := by
  have HA := c1_merger_precedence c1mA c1manA []
    [("name", .str "nm"), ("description", .str "ds"), ("stars", .num 7),
     ("downloads", .num 8), ("changelog", .str "cl"), ("updated_at", .str "up"),
     ("version", .str "3.0.0"), ("verified", .bool false)] rfl
  have HB := c1_merger_precedence c1mB c1manB c1stB
    [("name", .null), ("stars", .num 1), ("downloads", .num 2),
     ("version", .str "0.0.0"), ("description", .null), ("verified", .bool false)] rfl
  obtain ⟨a1, -, -, -, -, -, a7, -, -⟩ := HA
  obtain ⟨-, b2, -, -, -, -, -, -, b9⟩ := HB
  refine ⟨rfl, rfl, a1 rfl, a7 (.str "nm") rfl rfl, b2 rfl,
    b9 (by simp [c1manB]) rfl⟩

/-! ### Shape of a successfully processed module -/

theorem processModule_ok_elim (m : Dict)
    (fM : String → String → JsonValue) (fS : String → String → Dict)
    (rec : Dict) (h : processModule (.ok m) fM fS = some rec) :
    rec = setDefaults m ∨
      ∃ o r, mergeRecord m (fM o r) (fS o r) = .ok rec := by
  have h1 : (match processRepoUrl ((dget m "repository").getD (.str "")) with
      | Except.error _ => none
      | Except.ok (owner?, repo?) =>
        match owner?, repo? with
        | some o, some r =>
          if (o.data.isEmpty || r.data.isEmpty) = true then some (setDefaults m)
          else
            match mergeRecord m (fM o r) (fS o r) with
            | Except.error _ => none
            | Except.ok rec1 => some rec1
        | _, _ => some (setDefaults m)) = some rec := h
  clear h
  rcases hpr : processRepoUrl ((dget m "repository").getD (.str "")) with e | pair
  · rw [hpr] at h1
    exact nomatch h1
  · rw [hpr] at h1
    have h := h1
    clear h1
    obtain ⟨o?, r?⟩ := pair
    rcases o? with _ | o
    · injection h with h2
      exact .inl h2.symm
    rcases r? with _ | r
    · injection h with h2
      exact .inl h2.symm
    by_cases he : (o.data.isEmpty || r.data.isEmpty) = true
    · simp only [he, if_true] at h
      injection h with h2
      exact .inl h2.symm
    · simp only [he, if_false] at h
      rcases hmr : mergeRecord m (fM o r) (fS o r) with e | rec1
      · rw [hmr] at h
        exact nomatch h
      · rw [hmr] at h
        injection h with h2
        exact .inr ⟨o, r, h2 ▸ hmr⟩

/-! ### Null-propagation helpers -/

theorem getD_chain_ne_null (A B : Option JsonValue) (d : JsonValue)
    (hA : A ≠ some .null) (hB : B ≠ some .null) (hd : d ≠ .null) :
    A.getD (B.getD d) ≠ .null := by
  cases A <;> cases B <;> simp_all

theorem getD_ne_null (X : Option JsonValue) (d : JsonValue)
    (hX : X ≠ some .null) (hd : d ≠ .null) : X.getD d ≠ .null := by
  cases X <;> simp_all

theorem statsMatch_ne_null (Y Z : Option JsonValue) (hZ : Z ≠ some .null) :
    (match Y with
     | none => Z
     | some .null => Z
     | some v => some v) ≠ some JsonValue.null := by
  rcases Y with _ | v
  · exact hZ
  · cases v
    · exact hZ
    all_goals simp

/-! ### Claim C3 (FinalRecord invariant) -/

/-- C3 counterexample: the invariant fails.  A local record carrying an
explicit null `version` sails through `setdefault` (the key exists, so
the default is not applied) and is appended with `version: null`. -/
theorem c3_counterexample :
    processModule (.ok [("name", .str "x"), ("version", .null)])
        (fun _ _ => .obj []) (fun _ _ => []) =
      some [("name", .str "x"), ("version", .null), ("stars", .num 0),
            ("downloads", .num 0), ("verified", .bool false)] :=
  rfl

/-- C3 amended: every record appended to the registry has the four keys
`version`, `stars`, `downloads`, `verified` PRESENT; their values are
non-null provided the local record does not itself carry an explicit
null at those keys and no fetched manifest carries an explicit null
`version`.  (`name` is excluded: a record may be appended with `name`
absent or null, since the `print` that raises the KeyError happens
after the append.) -/
theorem c3_final_record_invariant (m : Dict)
    (fM : String → String → JsonValue) (fS : String → String → Dict)
    (rec : Dict) (h : processModule (.ok m) fM fS = some rec) :
    ((dget rec "version").isSome ∧ (dget rec "stars").isSome ∧
     (dget rec "downloads").isSome ∧ (dget rec "verified").isSome) ∧
    (dget m "version" ≠ some .null →
      (∀ o r fs, fM o r = .obj fs → dget fs "version" ≠ some .null) →
      dget rec "version" ≠ some .null) ∧
    (dget m "stars" ≠ some .null → dget rec "stars" ≠ some .null) ∧
    (dget m "downloads" ≠ some .null → dget rec "downloads" ≠ some .null) ∧
    (dget m "verified" ≠ some .null → dget rec "verified" ≠ some .null) := by
  rcases processModule_ok_elim m fM fS rec h with hrec | ⟨o, r, hmr⟩
  · subst hrec
    refine ⟨⟨?_, ?_, ?_, ?_⟩, fun hv _ => ?_, fun hs => ?_, fun hd => ?_, fun hf => ?_⟩
    · rw [dget_setDefaults_version]; rfl
    · rw [dget_setDefaults_stars]; rfl
    · rw [dget_setDefaults_downloads]; rfl
    · rw [dget_setDefaults_verified]; rfl
    · rw [dget_setDefaults_version]
      simpa using getD_ne_null _ _ hv (by simp)
    · rw [dget_setDefaults_stars]
      simpa using getD_ne_null _ _ hs (by simp)
    · rw [dget_setDefaults_downloads]
      simpa using getD_ne_null _ _ hd (by simp)
    · rw [dget_setDefaults_verified]
      simpa using getD_ne_null _ _ hf (by simp)
  · obtain ⟨m1, hfin, hcase⟩ := mergeRecord_ok_elim m (fM o r) (fS o r) rec hmr
    subst hfin
    have hm1stars : dget m1 "stars" = dget m "stars" := by
      rcases hcase with ⟨_, rfl⟩ | ⟨fs, hfs, hmm⟩
      · rfl
      · exact mergeManifest_other m fs m1 hmm (by decide) (by decide) (by decide) (by decide)
    have hm1downloads : dget m1 "downloads" = dget m "downloads" := by
      rcases hcase with ⟨_, rfl⟩ | ⟨fs, hfs, hmm⟩
      · rfl
      · exact mergeManifest_other m fs m1 hmm (by decide) (by decide) (by decide) (by decide)
    have hm1verified : dget m1 "verified" = dget m "verified" := by
      rcases hcase with ⟨_, rfl⟩ | ⟨fs, hfs, hmm⟩
      · rfl
      · exact mergeManifest_other m fs m1 hmm (by decide) (by decide) (by decide) (by decide)
    refine ⟨⟨?_, ?_, ?_, ?_⟩, fun hv hman => ?_, fun hs => ?_, fun hd => ?_, fun hf => ?_⟩
    · rw [dget_setDefaults_version]; rfl
    · rw [dget_setDefaults_stars]; rfl
    · rw [dget_setDefaults_downloads]; rfl
    · rw [dget_setDefaults_verified]; rfl
    · rw [dget_setDefaults_version,
        dget_mergeStats_other _ _ (by decide) (by decide) (by decide) (by decide)]
      have hm1v : dget m1 "version" ≠ some .null := by
        rcases hcase with ⟨_, rfl⟩ | ⟨fs, hfs, hmm⟩
        · exact hv
        · rw [mergeManifest_version m fs m1 hmm]
          have hfsv : dget fs "version" ≠ some .null := hman o r fs hfs
          simpa using getD_chain_ne_null _ _ _ hfsv hv (by simp)
      simpa using getD_ne_null _ _ hm1v (by simp)
    · rw [dget_setDefaults_stars, dget_mergeStats_stars]
      have : dget m1 "stars" ≠ some .null := hm1stars ▸ hs
      simpa using getD_ne_null _ _ (statsMatch_ne_null _ _ this) (by simp)
    · rw [dget_setDefaults_downloads, dget_mergeStats_downloads]
      have : dget m1 "downloads" ≠ some .null := hm1downloads ▸ hd
      simpa using getD_ne_null _ _ (statsMatch_ne_null _ _ this) (by simp)
    · rw [dget_setDefaults_verified,
        dget_mergeStats_other _ _ (by decide) (by decide) (by decide) (by decide)]
      have : dget m1 "verified" ≠ some .null := hm1verified ▸ hf
      simpa using getD_ne_null _ _ this (by simp)

/-- Local record for the C3 witness. -/
def c3m : Dict := [("name", .str "x"), ("repository", .str "https://github.com/a/b")]

/-- Manifest oracle for the C3 witness. -/
def c3fM : String → String → JsonValue := fun _ _ => .obj [("version", .str "1.2.3")]

/-- Stats oracle for the C3 witness. -/
def c3fS : String → String → Dict := fun _ _ => [("stars", .num 5)]

/-- The record the C3 witness inputs produce. -/
def c3rec : Dict :=
  [("name", .str "x"), ("repository", .str "https://github.com/a/b"),
   ("version", .str "1.2.3"), ("description", .null), ("stars", .num 5),
   ("downloads", .num 0), ("verified", .bool false)]

/-- C3 witness: the amended theorem applied to a concrete module whose
repository is identified, with all hypotheses discharged concretely. -/
theorem c3_witness :
    processModule (.ok c3m) c3fM c3fS = some c3rec ∧
    ((dget c3rec "version").isSome ∧ (dget c3rec "stars").isSome ∧
     (dget c3rec "downloads").isSome ∧ (dget c3rec "verified").isSome) ∧
    dget c3rec "version" ≠ some .null ∧
    dget c3rec "stars" ≠ some .null ∧
    dget c3rec "downloads" ≠ some .null ∧
    dget c3rec "verified" ≠ some .null := by
  have H := c3_final_record_invariant c3m c3fM c3fS c3rec rfl
  refine ⟨rfl, H.1, ?_, ?_, ?_, ?_⟩
  · refine H.2.1 (fun hx => nomatch hx) (fun o r fs hfs => ?_)
    injection hfs with h2
    subst h2
    exact fun hx => nomatch hx
  · exact H.2.2.1 (fun hx => nomatch hx)
  · exact H.2.2.2.1 (fun hx => nomatch hx)
  · exact H.2.2.2.2 (fun hx => nomatch hx)

/-! ### Claim C7 (changelog bounds and downloads sum)

The claim quantifies over release lists of the shape the hosting
provider returns: objects with a string `tag_name`, an optional string
`body`, and an optional asset list with integer download counts.  The
Bool checks below capture that shape, and the `...Spec` extractors
state the expected values the claim describes. -/

/-- Shape check for one release asset as the fetcher consumes it. -/
def wfAsset : JsonValue → Bool
  | .obj fs =>
      (match dget fs "download_count" with
       | none => true
       | some (.num _) => true
       | some _ => false)
  | _ => false

/-- Shape check for one release object. -/
def wfRelease : JsonValue → Bool
  | .obj fs =>
      (match dget fs "tag_name" with
       | some (.str _) => true
       | _ => false) &&
      (match dget fs "body" with
       | none => true
       | some (.str _) => true
       | _ => false) &&
      (match dget fs "assets" with
       | none => true
       | some (.arr xs) => xs.all wfAsset
       | _ => false)
  | _ => false

/-- Expected changelog key of a well-formed release: its tag. -/
def relTagSpec : JsonValue → String
  | .obj fs =>
      (match dget fs "tag_name" with
       | some (.str t) => t
       | _ => "")
  | _ => ""

/-- Expected changelog value of a well-formed release: its body (empty
when absent) truncated to the first 500 characters. -/
def relBodySpec : JsonValue → JsonValue
  | .obj fs =>
      (match dget fs "body" with
       | none => .str ""
       | some (.str s) => .str (String.mk (s.data.take 500))
       | some _ => .null)
  | _ => .null

/-- Expected download count of a well-formed asset. -/
def specAssetCount : JsonValue → Int
  | .obj fs =>
      (match dget fs "download_count" with
       | some (.num n) => n
       | _ => 0)
  | _ => 0

/-- Expected download contribution of a well-formed release: the sum of
its assets' counts. -/
def relDownloadsSpec : JsonValue → Int
  | .obj fs =>
      (match dget fs "assets" with
       | some (.arr xs) => (xs.map specAssetCount).sum
       | _ => 0)
  | _ => 0

theorem exceptBind_ok {α β : Type} (a : α) (f : α → Except Unit β) :
    (Except.ok a >>= f : Except Unit β) = f a := rfl

theorem exceptPure_bind {α β : Type} (a : α) (f : α → Except Unit β) :
    (pure a >>= f : Except Unit β) = f a := rfl

theorem relEntry_wf (rel : JsonValue) (h : wfRelease rel = true) :
    relEntry rel = .ok (.str (relTagSpec rel), relBodySpec rel) := by
  cases rel with
  | obj fs =>
      simp only [wfRelease, Bool.and_eq_true] at h
      obtain ⟨⟨ht, hb⟩, -⟩ := h
      rcases htag : dget fs "tag_name" with _ | t <;> rw [htag] at ht
      · exact absurd ht (by simp)
      cases t with
      | str s =>
          rcases hbody : dget fs "body" with _ | b <;> rw [hbody] at hb
          · simp [relEntry, relTagSpec, relBodySpec, htag, hbody, pySliceTake]
          cases b with
          | str bs =>
              simp [relEntry, relTagSpec, relBodySpec, htag, hbody, pySliceTake]
          | null => exact absurd hb (by simp)
          | bool x => exact absurd hb (by simp)
          | num x => exact absurd hb (by simp)
          | arr x => exact absurd hb (by simp)
          | obj x => exact absurd hb (by simp)
          | pdict x => exact absurd hb (by simp)
      | null => exact absurd ht (by simp)
      | bool x => exact absurd ht (by simp)
      | num x => exact absurd ht (by simp)
      | arr x => exact absurd ht (by simp)
      | obj x => exact absurd ht (by simp)
      | pdict x => exact absurd ht (by simp)
  | null => exact absurd h (by simp [wfRelease])
  | bool b => exact absurd h (by simp [wfRelease])
  | num n => exact absurd h (by simp [wfRelease])
  | str s => exact absurd h (by simp [wfRelease])
  | arr xs => exact absurd h (by simp [wfRelease])
  | pdict ps => exact absurd h (by simp [wfRelease])

theorem pdictSet_fresh (acc : List (JsonValue × JsonValue)) (k v : JsonValue)
    (h : ∀ p ∈ acc, keyEq p.1 k = false) :
    pdictSet acc k v = acc ++ [(k, v)] := by
  induction acc with
  | nil => rfl
  | cons p rest ih =>
      obtain ⟨k1, v1⟩ := p
      simp only [pdictSet]
      rw [h (k1, v1) (List.mem_cons_self _ _)]
      simp only [Bool.false_eq_true, if_false, List.cons_append, List.cons.injEq,
        true_and]
      exact ih (fun q hq => h q (List.mem_cons_of_mem _ hq))

theorem buildChangelog_go (l : List JsonValue)
    (acc : List (JsonValue × JsonValue))
    (hwf : ∀ rel ∈ l, wfRelease rel = true)
    (hdisj : ∀ rel ∈ l, ∀ p ∈ acc, keyEq p.1 (.str (relTagSpec rel)) = false)
    (hnd : (l.map relTagSpec).Nodup) :
    l.foldlM (fun acc rel => do
        let e ← relEntry rel
        pure (pdictSet acc e.1 e.2)) acc =
      .ok (acc ++ l.map (fun rel => (.str (relTagSpec rel), relBodySpec rel))) := by
  induction l generalizing acc with
  | nil => rw [List.map_nil, List.append_nil]; rfl
  | cons rel rest ih =>
      have hfresh : pdictSet acc (.str (relTagSpec rel)) (relBodySpec rel) =
          acc ++ [(.str (relTagSpec rel), relBodySpec rel)] :=
        pdictSet_fresh _ _ _ (hdisj rel (List.mem_cons_self _ _))
      simp only [List.map_cons, List.nodup_cons] at hnd
      have hdisj2 : ∀ q ∈ rest,
          ∀ p ∈ acc ++ [(JsonValue.str (relTagSpec rel), relBodySpec rel)],
          keyEq p.1 (.str (relTagSpec q)) = false := by
        intro q hq p hp
        rcases List.mem_append.mp hp with hp1 | hp2
        · exact hdisj q (List.mem_cons_of_mem _ hq) p hp1
        · have hpe : p = (JsonValue.str (relTagSpec rel), relBodySpec rel) := by
            simpa using hp2
          subst hpe
          have hne : relTagSpec rel ≠ relTagSpec q := by
            intro hcontra
            exact hnd.1 (hcontra ▸ List.mem_map_of_mem relTagSpec hq)
          simpa [keyEq] using hne
      have hstep := ih (acc ++ [(JsonValue.str (relTagSpec rel), relBodySpec rel)])
        (fun q hq => hwf q (List.mem_cons_of_mem _ hq)) hdisj2 hnd.2
      rw [List.foldlM_cons, relEntry_wf rel (hwf rel (List.mem_cons_self _ _)),
        exceptBind_ok, exceptPure_bind, hfresh, hstep, List.map_cons,
        List.append_assoc]
      rfl

theorem assetCount_wf (a : JsonValue) (h : wfAsset a = true) :
    assetCount a = .ok (specAssetCount a) := by
  cases a with
  | obj fs =>
      simp only [wfAsset] at h
      rcases hd : dget fs "download_count" with _ | v <;> rw [hd] at h
      · simp [assetCount, specAssetCount, hd]
      cases v with
      | num n => simp [assetCount, specAssetCount, hd]
      | null => exact absurd h (by simp)
      | bool x => exact absurd h (by simp)
      | str x => exact absurd h (by simp)
      | arr x => exact absurd h (by simp)
      | obj x => exact absurd h (by simp)
      | pdict x => exact absurd h (by simp)
  | null => exact absurd h (by simp [wfAsset])
  | bool b => exact absurd h (by simp [wfAsset])
  | num n => exact absurd h (by simp [wfAsset])
  | str s => exact absurd h (by simp [wfAsset])
  | arr xs => exact absurd h (by simp [wfAsset])
  | pdict ps => exact absurd h (by simp [wfAsset])

theorem sumAssets_go (xs : List JsonValue) (acc : Int)
    (h : ∀ a ∈ xs, wfAsset a = true) :
    xs.foldlM (fun a asset => do
        let c ← assetCount asset
        pure (a + c)) acc = .ok (acc + (xs.map specAssetCount).sum) := by
  induction xs generalizing acc with
  | nil => rw [List.map_nil, List.sum_nil, Int.add_zero]; rfl
  | cons a rest ih =>
      rw [List.foldlM_cons, assetCount_wf a (h a (List.mem_cons_self _ _)),
        exceptBind_ok, exceptPure_bind,
        ih _ (fun q hq => h q (List.mem_cons_of_mem _ hq)),
        List.map_cons, List.sum_cons, Int.add_assoc]

theorem relAssets_wf (rel : JsonValue) (h : wfRelease rel = true) :
    ∃ xs, relAssets rel = .ok xs ∧ (∀ a ∈ xs, wfAsset a = true) ∧
      relDownloadsSpec rel = (xs.map specAssetCount).sum := by
  cases rel with
  | obj fs =>
      simp only [wfRelease, Bool.and_eq_true] at h
      obtain ⟨-, ha⟩ := h
      rcases hassets : dget fs "assets" with _ | v <;> rw [hassets] at ha
      · exact ⟨[], by simp [relAssets, hassets], by simp,
          by simp [relDownloadsSpec, hassets]⟩
      cases v with
      | arr xs =>
          refine ⟨xs, by simp [relAssets, hassets], ?_,
            by simp [relDownloadsSpec, hassets]⟩
          intro a hax
          exact List.all_eq_true.mp ha a hax
      | null => exact absurd ha (by simp)
      | bool x => exact absurd ha (by simp)
      | num x => exact absurd ha (by simp)
      | str x => exact absurd ha (by simp)
      | obj x => exact absurd ha (by simp)
      | pdict x => exact absurd ha (by simp)
  | null => exact absurd h (by simp [wfRelease])
  | bool b => exact absurd h (by simp [wfRelease])
  | num n => exact absurd h (by simp [wfRelease])
  | str s => exact absurd h (by simp [wfRelease])
  | arr xs => exact absurd h (by simp [wfRelease])
  | pdict ps => exact absurd h (by simp [wfRelease])

theorem sumDownloads_go : ∀ (rels : List JsonValue) (acc : Int),
    (∀ rel ∈ rels, wfRelease rel = true) →
    rels.foldlM (fun acc rel => do
        let xs ← relAssets rel
        xs.foldlM (fun a asset => do
          let c ← assetCount asset
          pure (a + c)) acc) acc =
      .ok (acc + (rels.map relDownloadsSpec).sum)
  | [], acc, _ => by rw [List.map_nil, List.sum_nil, Int.add_zero]; rfl
  | rel :: rest, acc, hwf => by
      obtain ⟨xs, hxs, hall, hspec⟩ :=
        relAssets_wf rel (hwf rel (List.mem_cons_self _ _))
      rw [List.foldlM_cons, hxs, exceptBind_ok, sumAssets_go xs acc hall,
        exceptBind_ok,
        sumDownloads_go rest _ (fun q hq => hwf q (List.mem_cons_of_mem _ hq)),
        List.map_cons, List.sum_cons, hspec, Int.add_assoc]

/-- C7: for every non-empty well-formed releases list (string tags,
distinct over the first five, optional string bodies, optional asset
lists with integer counts), the changelog is exactly the tag-to-body
mapping of the first min(n, 5) releases with each body truncated to its
first 500 characters (so at most 500), while `downloads` sums asset
counts over ALL n releases. -/
theorem c7_changelog_downloads (rels : List JsonValue)
    (_hne : rels ≠ [])
    (hwf : rels.all wfRelease = true)
    (hnd : ((rels.take 5).map relTagSpec).Nodup) :
    buildChangelog rels =
      .ok ((rels.take 5).map
        (fun rel => (.str (relTagSpec rel), relBodySpec rel))) ∧
    (rels.take 5).length = min rels.length 5 ∧
    (∀ rel ∈ rels.take 5, ∃ s, relBodySpec rel = .str s ∧ s.data.length ≤ 500) ∧
    sumDownloads rels = .ok ((rels.map relDownloadsSpec).sum) := by
  have hwf2 : ∀ rel ∈ rels, wfRelease rel = true := List.all_eq_true.mp hwf
  refine ⟨?_, ?_, ?_, ?_⟩
  · unfold buildChangelog
    have := buildChangelog_go (rels.take 5) []
      (fun q hq => hwf2 q (List.take_subset _ _ hq))
      (fun q hq p hp => absurd hp (List.not_mem_nil p)) hnd
    rw [this, List.nil_append]
  · rw [List.length_take, Nat.min_comm]
  · intro rel hrel
    have hw := hwf2 rel (List.take_subset _ _ hrel)
    cases rel with
    | obj fs =>
        simp only [wfRelease, Bool.and_eq_true] at hw
        obtain ⟨⟨-, hb⟩, -⟩ := hw
        rcases hbody : dget fs "body" with _ | b <;> rw [hbody] at hb
        · exact ⟨"", by simp [relBodySpec, hbody], by simp⟩
        cases b with
        | str s =>
            refine ⟨String.mk (s.data.take 500), by simp [relBodySpec, hbody], ?_⟩
            simp [List.length_take_le 500 s.data]
        | null => exact absurd hb (by simp)
        | bool x => exact absurd hb (by simp)
        | num x => exact absurd hb (by simp)
        | arr x => exact absurd hb (by simp)
        | obj x => exact absurd hb (by simp)
        | pdict x => exact absurd hb (by simp)
    | null => exact absurd hw (by simp [wfRelease])
    | bool b => exact absurd hw (by simp [wfRelease])
    | num n => exact absurd hw (by simp [wfRelease])
    | str s => exact absurd hw (by simp [wfRelease])
    | arr xs => exact absurd hw (by simp [wfRelease])
    | pdict ps => exact absurd hw (by simp [wfRelease])
  · unfold sumDownloads
    have := sumDownloads_go rels 0 hwf2
    simpa using this

/-- A release literal for the C7 witness. -/
def mkRel (t b : String) (c : Int) : JsonValue :=
  .obj [("tag_name", .str t), ("body", .str b),
        ("assets", .arr [.obj [("download_count", .num c)]])]

/-- A 1000-character release body. -/
def c7body : String := String.mk (List.replicate 1000 'a')

/-- Eight releases, most recent first; the first has a 1000-character
body, and download counts over all eight sum to 36. -/
def c7rels : List JsonValue :=
  [mkRel "v1" c7body 1, mkRel "v2" "b2" 2, mkRel "v3" "b3" 3,
   mkRel "v4" "b4" 4, mkRel "v5" "b5" 5, mkRel "v6" "b6" 6,
   mkRel "v7" "b7" 7, mkRel "v8" "b8" 8]

set_option maxRecDepth 10000 in
/-- C7 witness: the theorem applied to the eight concrete releases —
the changelog keeps exactly the five most recent tags with the
1000-character body cut to exactly its first 500 characters, and
`downloads` is 36, the sum over all eight releases. -/
theorem c7_witness :
    (c7rels ≠ [] ∧ c7rels.all wfRelease = true ∧
      ((c7rels.take 5).map relTagSpec).Nodup) ∧
    buildChangelog c7rels =
      .ok ((c7rels.take 5).map
        (fun rel => (.str (relTagSpec rel), relBodySpec rel))) ∧
    (c7rels.take 5).map relTagSpec = ["v1", "v2", "v3", "v4", "v5"] ∧
    relBodySpec (mkRel "v1" c7body 1) = .str (String.mk (List.replicate 500 'a')) ∧
    sumDownloads c7rels = .ok 36 := by
  have h1 : c7rels ≠ [] := by simp [c7rels]
  have h2 : c7rels.all wfRelease = true := by rfl
  have h3 : ((c7rels.take 5).map relTagSpec).Nodup := by decide
  have H := c7_changelog_downloads c7rels h1 h2 h3
  exact ⟨⟨h1, h2, h3⟩, H.1, rfl, rfl, H.2.2.2⟩

/-! ### Claim C8 (assembler order and partial-failure isolation)

Order facts about the code-point comparison and the insertion sort. -/

theorem charEq_of_toNat_eq {a b : Char} (h : a.toNat = b.toNat) : a = b := by
  apply Char.ext
  unfold Char.toNat at h
  exact UInt32.toNat.inj h

theorem strLeb_total : ∀ s t : List Char, strLeb s t = true ∨ strLeb t s = true
  | [], _ => .inl rfl
  | _ :: _, [] => .inr rfl
  | a :: as, b :: bs => by
      simp only [strLeb]
      rcases Nat.lt_trichotomy a.toNat b.toNat with h | h | h
      · left; simp [h]
      · have h1 : ¬ a.toNat < b.toNat := by omega
        have h2 : ¬ b.toNat < a.toNat := by omega
        simp only [h1, h2, if_false]
        exact strLeb_total as bs
      · right; simp [h]

theorem strLeb_trans : ∀ s t u : List Char,
    strLeb s t = true → strLeb t u = true → strLeb s u = true
  | [], _, _, _, _ => rfl
  | _ :: _, [], _, h1, _ => absurd h1 (by simp [strLeb])
  | _ :: _, _ :: _, [], _, h2 => absurd h2 (by simp [strLeb])
  | a :: as, b :: bs, c :: cs, h1, h2 => by
      simp only [strLeb] at h1 h2 ⊢
      by_cases hba : b.toNat < a.toNat
      · simp [if_neg (by omega : ¬ a.toNat < b.toNat), hba] at h1
      by_cases hcb : c.toNat < b.toNat
      · simp [if_neg (by omega : ¬ b.toNat < c.toNat), hcb] at h2
      by_cases hab : a.toNat < b.toNat
      · have hac : a.toNat < c.toNat := by omega
        simp [hac]
      by_cases hbc : b.toNat < c.toNat
      · have hac : a.toNat < c.toNat := by omega
        simp [hac]
      · have h1x : strLeb as bs = true := by simpa [hab, hba] using h1
        have h2x : strLeb bs cs = true := by simpa [hbc, hcb] using h2
        have hac1 : ¬ a.toNat < c.toNat := by omega
        have hac2 : ¬ c.toNat < a.toNat := by omega
        simp only [hac1, hac2, if_false]
        exact strLeb_trans as bs cs h1x h2x

theorem strLeb_antisymm : ∀ s t : List Char,
    strLeb s t = true → strLeb t s = true → s = t
  | [], [], _, _ => rfl
  | [], _ :: _, _, h2 => absurd h2 (by simp [strLeb])
  | _ :: _, [], h1, _ => absurd h1 (by simp [strLeb])
  | a :: as, b :: bs, h1, h2 => by
      simp only [strLeb] at h1 h2
      by_cases hab : a.toNat < b.toNat
      · simp [if_neg (by omega : ¬ b.toNat < a.toNat), hab] at h2
      by_cases hba : b.toNat < a.toNat
      · simp [hab, hba] at h1
      · have h1x : strLeb as bs = true := by simpa [hab, hba] using h1
        have h2x : strLeb bs as = true := by simpa [hab, hba] using h2
        have : a = b := charEq_of_toNat_eq (by omega)
        rw [this, strLeb_antisymm as bs h1x h2x]

/-- Processing order of the assembler: code-point order by filename. -/
def fleq (a b : FileEntry) : Prop := strLeb a.1.data b.1.data = true

theorem insertFile_perm (f : FileEntry) :
    ∀ l : List FileEntry, (insertFile f l).Perm (f :: l)
  | [] => List.Perm.refl _
  | g :: gs => by
      simp only [insertFile]
      split
      · exact ((insertFile_perm f gs).cons g).trans (List.Perm.swap f g gs)
      · exact List.Perm.refl _

theorem sortFiles_perm : ∀ l : List FileEntry, (sortFiles l).Perm l
  | [] => List.Perm.refl _
  | a :: t => by
      show (insertFile a (sortFiles t)).Perm (a :: t)
      exact (insertFile_perm a (sortFiles t)).trans ((sortFiles_perm t).cons a)

theorem insertFile_sorted (f : FileEntry) :
    ∀ l : List FileEntry, l.Pairwise fleq → (insertFile f l).Pairwise fleq
  | [], _ => by simp [insertFile]
  | g :: gs, h => by
      obtain ⟨hg, hgs⟩ := List.pairwise_cons.mp h
      simp only [insertFile]
      split
      next hle =>
          refine List.pairwise_cons.mpr ⟨?_, insertFile_sorted f gs hgs⟩
          intro b hb
          rcases List.mem_cons.mp ((insertFile_perm f gs).mem_iff.mp hb) with rfl | hbgs
          · exact hle
          · exact hg b hbgs
      next hle =>
          have hfg : fleq f g := by
            rcases strLeb_total g.1.data f.1.data with h1 | h1
            · exact absurd h1 hle
            · exact h1
          refine List.pairwise_cons.mpr ⟨?_, h⟩
          intro b hb
          rcases List.mem_cons.mp hb with rfl | hbgs
          · exact hfg
          · exact strLeb_trans _ _ _ hfg (hg b hbgs)

theorem sortFiles_sorted : ∀ l : List FileEntry, (sortFiles l).Pairwise fleq
  | [] => List.Pairwise.nil
  | a :: t => insertFile_sorted a (sortFiles t) (sortFiles_sorted t)

/-- Two sorted lists that are permutations of each other and have
pairwise distinct filenames are equal. -/
theorem sorted_perm_nodup_eq : ∀ l1 l2 : List FileEntry,
    l1.Pairwise fleq → l2.Pairwise fleq → l1.Perm l2 →
    (l1.map Prod.fst).Nodup → l1 = l2
  | [], l2, _, _, hp, _ => hp.nil_eq
  | a :: t1, [], _, _, hp, _ => absurd hp.symm.nil_eq (by simp)
  | a :: t1, b :: t2, h1, h2, hp, hnd => by
      obtain ⟨ha1, ht1⟩ := List.pairwise_cons.mp h1
      obtain ⟨hb2, ht2⟩ := List.pairwise_cons.mp h2
      rw [List.map_cons] at hnd
      obtain ⟨hna, hndt⟩ := List.nodup_cons.mp hnd
      by_cases hab : a = b
      · subst hab
        have htp : t1.Perm t2 := hp.cons_inv
        have := sorted_perm_nodup_eq t1 t2 ht1 ht2 htp hndt
        rw [this]
      · have hamem : a ∈ b :: t2 := hp.mem_iff.mp (List.mem_cons_self _ _)
        have hbmem : b ∈ a :: t1 := hp.symm.mem_iff.mp (List.mem_cons_self _ _)
        have hat2 : a ∈ t2 := by
          rcases List.mem_cons.mp hamem with h | h
          · exact absurd h hab
          · exact h
        have hbt1 : b ∈ t1 := by
          rcases List.mem_cons.mp hbmem with h | h
          · exact absurd h.symm hab
          · exact h
        have hle1 : fleq a b := ha1 b hbt1
        have hle2 : fleq b a := hb2 a hat2
        have hkeys : a.1 = b.1 := by
          have h3 := strLeb_antisymm a.1.data b.1.data hle1 hle2
          cases ha' : a.1 with
          | mk da =>
              cases hb' : b.1 with
              | mk db =>
                  rw [ha', hb'] at h3
                  exact congrArg String.mk h3
        exact absurd (hkeys ▸ List.mem_map_of_mem Prod.fst hbt1) hna

/-- The C8 scenario directory: three descriptor files given in
discovery order c, b, a, with b.json malformed. -/
def c8files : List FileEntry :=
  [("c.json", .ok [("name", .str "c")]), ("b.json", .error ()),
   ("a.json", .ok [("name", .str "a")])]

/-- C8: the assembler processes files in deterministic code-point
lexicographic order by filename (the output is invariant under the
discovery order when filenames are distinct), a file whose content
fails to parse contributes nothing without aborting the run, and the
registry's `modules` is exactly the sequence of successfully produced
records in that order; in the concrete three-file scenario with one
malformed file the registry holds exactly the two good records. -/
theorem c8_assembler_isolation (files files2 : List FileEntry)
    (fM : String → String → JsonValue) (fS : String → String → Dict)
    (now : String) :
    (dget (build_registry files fM fS now) "modules" =
      some (.arr (((sortFiles files).filterMap
        (fun fp => processModule fp.2 fM fS)).map JsonValue.obj))) ∧
    (sortFiles files).Pairwise fleq ∧
    (sortFiles files).Perm files ∧
    (∀ e, processModule (.error e) fM fS = none) ∧
    (files.Perm files2 → (files.map Prod.fst).Nodup →
      build_registry files fM fS now = build_registry files2 fM fS now) ∧
    dget (build_registry c8files (fun _ _ => .obj []) (fun _ _ => []) now)
        "modules" =
      some (.arr
        [.obj [("name", .str "a"), ("version", .str "0.0.0"), ("stars", .num 0),
               ("downloads", .num 0), ("verified", .bool false)],
         .obj [("name", .str "c"), ("version", .str "0.0.0"), ("stars", .num 0),
               ("downloads", .num 0), ("verified", .bool false)]]) := by
  refine ⟨rfl, sortFiles_sorted files, sortFiles_perm files, fun e => rfl,
    fun hperm hnd => ?_, rfl⟩
  have h1 : (sortFiles files).Perm (sortFiles files2) :=
    (sortFiles_perm files).trans (hperm.trans (sortFiles_perm files2).symm)
  have hnd1 : ((sortFiles files).map Prod.fst).Nodup := by
    have hmp : ((sortFiles files).map Prod.fst).Perm (files.map Prod.fst) :=
      (sortFiles_perm files).map _
    exact hmp.nodup_iff.mpr hnd
  have heq : sortFiles files = sortFiles files2 :=
    sorted_perm_nodup_eq _ _ (sortFiles_sorted files) (sortFiles_sorted files2)
      h1 hnd1
  unfold build_registry
  rw [heq]

/-- C8 witness: determinism applied at a concrete two-file directory
presented in two discovery orders. -/
theorem c8_witness :
    build_registry [("b.json", .ok [("name", .str "b1")]), ("a.json", .error ())]
        (fun _ _ => .obj []) (fun _ _ => []) "T" =
      build_registry [("a.json", .error ()), ("b.json", .ok [("name", .str "b1")])]
        (fun _ _ => .obj []) (fun _ _ => []) "T" := by
  have H := c8_assembler_isolation
    [("b.json", .ok [("name", .str "b1")]), ("a.json", .error ())]
    [("a.json", .error ()), ("b.json", .ok [("name", .str "b1")])]
    (fun _ _ => .obj []) (fun _ _ => []) "T"
  exact H.2.2.2.2.1 (List.Perm.swap _ _ _) (by decide)

end BuildRegistry
